import Mathlib

/-! Verification development for the dark-mode HTTP file server
(`src/dark_mode_server/server.py`).  The server's pure request-handling
logic is embedded shallowly: request paths are lists of segments, the
filesystem is a classification function on resolved paths, and the
admission semaphore is a labelled transition system. -/

namespace DarkModeServer

/-! ## Path model

A filesystem location is a list of path segments below the root.  The
handler computes `self.base_path / self.path.lstrip('/')`: `lstrip('/')`
drops every leading slash, and the `pathlib` join splits the remainder on
slashes, discarding empty and single-dot segments while keeping `..`
segments verbatim.  No percent-decoding and no query-string removal
happens anywhere. -/

def lstripSlash (s : String) : String :=
  String.mk (s.data.dropWhile (fun c => c == '/'))

def segsOf : List Char → List Char → List String
  | [], cur => [String.mk cur.reverse]
  | c :: rest, cur =>
    if c == '/' then String.mk cur.reverse :: segsOf rest []
    else segsOf rest (c :: cur)

def pathSegs (s : String) : List String :=
  (segsOf s.data []).filter (fun t => t != "" && t != ".")

/-- The path built by `self.base_path / self.path.lstrip('/')`. -/
def resolvedPath (base : List String) (raw : String) : List String :=
  base ++ pathSegs (lstripSlash raw)

/-- OS-level resolution of `..` segments in an absolute path, as performed
by `stat` when the handler calls `path.exists()` / `path.is_dir()`; a `..`
at the root stays at the root. -/
def normalize (segs : List String) : List String :=
  segs.foldl (fun acc s => if s = ".." then acc.dropLast else acc ++ [s]) []

/-! ## Filesystem and routing -/

inductive FsType where
  | missing
  | dir
  | file
deriving DecidableEq, Repr

/-- Result of `handle_file_or_dir`: 404, a directory listing of the joined
path, or delegation of a file to `SimpleHTTPRequestHandler.do_GET`. -/
inductive FileOrDirResult where
  | notFound
  | listing (p : List String)
  | delegate (p : List String)
deriving DecidableEq, Repr

/-- Embedding of `DarkModeHTTPHandler.handle_file_or_dir`: join the raw
path to the base, ask the filesystem (which resolves `..` at the OS
level), and branch on the classification.  There is no normalization or
containment check before use. -/
def handle_file_or_dir (fs : List String → FsType) (base : List String)
    (raw : String) : FileOrDirResult :=
  let path := resolvedPath base raw
  match fs (normalize path) with
  | .missing => .notFound
  | .dir => .listing path
  | .file => .delegate path

/-! ## Size labels

Line 149 of the source:
`size = f"{item.stat().st_size/1024:.1f} KB" if item.stat().st_size > 0 else "0 KB"`.
For sizes below 2^53 the double `st_size/1024` is exact, so the `:.1f`
formatting is exactly round-half-to-even of the rational `size/1024` to
one decimal place. -/

def roundHalfEven (num den : Nat) : Nat :=
  if 2 * (num % den) < den then num / den
  else if den < 2 * (num % den) then num / den + 1
  else if (num / den) % 2 = 0 then num / den
  else num / den + 1

/-- Rendering of `f"{size/1024:.1f}"`: the number of tenths of a KiB,
rounded half-to-even, printed as `whole.tenth`. -/
def fmtTenths (size : Nat) : String :=
  let t := roundHalfEven (10 * size) 1024
  toString (t / 10) ++ "." ++ toString (t % 10)

def fileSizeLabel (size : Nat) : String :=
  if 0 < size then fmtTenths size ++ " KB" else "0 KB"

/-! ## Directory listing -/

/-- One child of the listed directory, as observed by `path.iterdir()`
plus `is_dir()` / `stat().st_size`. -/
structure DirChild where
  name : String
  isDir : Bool
  size : Nat
deriving DecidableEq, Repr

/-- Ordering used by `sorted(path.iterdir())`: `pathlib` compares the
path strings, which for children of one directory is the case-sensitive
lexical order of their names. -/
def childOrd (a b : DirChild) : Prop := a.name ≤ b.name

instance : DecidableRel childOrd :=
  fun a b => inferInstanceAs (Decidable (a.name ≤ b.name))

instance : IsTotal DirChild childOrd := ⟨fun a b => le_total a.name b.name⟩

instance : IsTrans DirChild childOrd := ⟨fun _ _ _ h h' => le_trans h h'⟩

def sortChildren (l : List DirChild) : List DirChild :=
  List.insertionSort childOrd l

/-- Item triple `(displayName, kindLabel, sizeLabel)` appended for one
child in the `for item in sorted(path.iterdir())` loop. -/
def renderChild (c : DirChild) : String × String × String :=
  if c.isDir then (c.name ++ "/", "Directory", "-")
  else (c.name, "File", fileSizeLabel c.size)

def parentEntry : String × String × String := ("../", "Parent Directory", "-")

/-- The `items` list of `send_directory_listing`: a parent link when the
listed path differs from the base path, followed by the sorted children. -/
def listingItems (base path : List String) (children : List DirChild) :
    List (String × String × String) :=
  (if path = base then [] else [parentEntry]) ++ (sortChildren children).map renderChild

/-- One `<li>` of the listing, mirroring the f-string pieces on lines
153-159 of the source; the name is interpolated raw into both the `href`
attribute and the link text. -/
def fileItemLi (name size : String) : String :=
  "<li class=\"file-item\">" ++
    ( "<a href=\"" ++ name ++ "\">" ++ name ++ "</a>") ++
    ( "<span class=\"file-size\">" ++ size ++ "</span>") ++
    "</li>"

/-- The `DARK_THEME` stylesheet string from the source. -/
def darkTheme : String := "
:root \x7b
    --bg: #121212;
    --text: #e0e0e0;
    --accent: #bb86fc;
    --border: #333;
\x7d
body \x7b
    font-family: \x27Segoe UI\x27, sans-serif;
    background: var(--bg);
    color: var(--text);
    margin: 0;
    padding: 20px;
    line-height: 1.6;
\x7d
a \x7b
    color: var(--accent);
    text-decoration: none;
\x7d
a:hover \x7b
    text-decoration: underline;
\x7d
.container \x7b
    max-width: 800px;
    margin: 0 auto;
    background: #1e1e1e;
    border-radius: 8px;
    padding: 20px;
    box-shadow: 0 4px 6px rgba(0,0,0,0.3);
\x7d
.header \x7b
    display: flex;
    justify-content: space-between;
    align-items: center;
    margin-bottom: 20px;
    padding-bottom: 10px;
    border-bottom: 1px solid var(--border);
\x7d
.file-list \x7b
    margin: 0;
    padding: 0;
    list-style: none;
\x7d
.file-item \x7b
    display: flex;
    justify-content: space-between;
    padding: 8px 12px;
    margin: 4px 0;
    border-radius: 4px;
\x7d
.file-item:hover \x7b
    background: #333;
\x7d
.file-size \x7b
    color: #aaa;
    font-family: monospace;
\x7d
"

/-- The HTML f-string of `send_directory_listing`, with the title, the
`time.ctime()` text and the joined list items interpolated. -/
def listingHtml (title ctime fileItems : String) : String :=
  "<!DOCTYPE html>
<html>
<head>
    <title>" ++ title ++ "</title>
    <meta name=\"viewport\" content=\"width=device-width, initial-scale=1\">
    <style>" ++ darkTheme ++ "</style>
</head>
<body>
    <div class=\"container\">
        <div class=\"header\">
            <h1>" ++ title ++ "</h1>
            <small>" ++ ctime ++ "</small>
        </div>
        <ul class=\"file-list\">
            " ++ fileItems ++ "
        </ul>
    </div>
</body>
</html>"

/-- Rendering of `str(path.relative_to(self.base_path))` for the title:
`relative_to` is purely lexical, and yields `.` for the base itself. -/
def relTo (base path : List String) : String :=
  let rel := path.drop base.length
  if rel.isEmpty then "." else String.intercalate "/" rel

/-! ## Responses -/

/-- Status line and headers of a response whose payload is the UTF-8
encoding of `body`. -/
structure HttpResponse where
  status : Nat
  contentType : String
  contentLength : Nat
  body : String
deriving DecidableEq, Repr

/-- Number of bytes of the UTF-8 encoding of one character (the argument
is a unicode scalar value, as both Python `str` code points used here and
Lean `Char` are). -/
def utf8CharLen (c : Char) : Nat :=
  if c.toNat < 0x80 then 1
  else if c.toNat < 0x800 then 2
  else if c.toNat < 0x10000 then 3
  else 4

/-- Byte length of `s.encode('utf-8')`. -/
def utf8Length (s : String) : Nat :=
  (s.data.map utf8CharLen).sum

/-- Embedding of `send_directory_listing` on its success path: the
Content-Length header is `str(len(html))`, the CHARACTER count of the
document, while the payload written is `html.encode('utf-8')`. -/
def send_directory_listing (base path : List String)
    (children : List DirChild) (ctime : String) : HttpResponse :=
  let title := "Directory listing for /" ++ relTo base path
  let items := listingItems base path children
  let fileItems := String.intercalate "\n" (items.map fun i => fileItemLi i.1 i.2.2)
  let html := listingHtml title ctime fileItems
  { status := 200, contentType := "text/html",
    contentLength := html.length, body := html }

/-! ## Status endpoint

`handle_api` serializes a four-field dict with `json.dumps` (default
separators `", "` and `": "`, `ensure_ascii` on) and sends the byte
length of the encoded payload as Content-Length. -/

inductive JsonValue where
  | str (s : String)
  | numLit (lit : String)
deriving DecidableEq, Repr

def hexDigit (n : Nat) : Char :=
  if n < 10 then Char.ofNat (48 + n) else Char.ofNat (87 + n)

def hex4 (n : Nat) : String :=
  String.mk [hexDigit (n / 4096 % 16), hexDigit (n / 256 % 16),
             hexDigit (n / 16 % 16), hexDigit (n % 16)]

def uEscape (c : Char) : String :=
  let n := c.toNat
  if n < 0x10000 then "\\u" ++ hex4 n
  else "\\u" ++ hex4 (0xd800 + (n - 0x10000) / 1024) ++
       "\\u" ++ hex4 (0xdc00 + (n - 0x10000) % 1024)

def jsonEscapeChar (c : Char) : String :=
  if c == '"' then "\\\""
  else if c == '\\' then "\\\\"
  else if c == '\n' then "\\n"
  else if c == '\t' then "\\t"
  else if c == '\r' then "\\r"
  else if c.toNat < 0x20 || 0x7e < c.toNat then uEscape c
  else String.singleton c

def jsonStr (s : String) : String :=
  "\"" ++ String.join (s.data.map jsonEscapeChar) ++ "\""

def serializeAtom : JsonValue → String
  | .str s => jsonStr s
  | .numLit l => l

def serializeObj (fields : List (String × JsonValue)) : String :=
  "\x7b" ++
    String.intercalate ", "
      (fields.map fun f => jsonStr f.1 ++ ": " ++ serializeAtom f.2) ++
    "\x7d"

/-- The dict literal of `handle_api`, in source order; `nowLit` is the
JSON literal produced for the float `time.time()` and `host` is the
string returned by `socket.gethostname()`. -/
def apiPayload (nowLit host : String) : List (String × JsonValue) :=
  [("status", .str "ok"),
   ("timestamp", .numLit nowLit),
   ("host", .str host),
   ("message", .str "VM-compatible dark mode server")]

def handle_api (nowLit host : String) : HttpResponse :=
  let body := serializeObj (apiPayload nowLit host)
  { status := 200, contentType := "application/json",
    contentLength := utf8Length body, body := body }

/-- Routing of `do_GET`: the exact string `/tcpstates` goes to the API
handler, everything else to the file/directory branch. -/
inductive GetResult where
  | api (r : HttpResponse)
  | fileOrDir (r : FileOrDirResult)
deriving DecidableEq, Repr

def do_GET (fs : List String → FsType) (base : List String)
    (nowLit host raw : String) : GetResult :=
  if raw = "/tcpstates" then .api (handle_api nowLit host)
  else .fileOrDir (handle_file_or_dir fs base raw)

/-! ## Admission gate

The class attribute `semaphore = Semaphore(MAX_CONCURRENT_REQUESTS)` is
shared by every handler thread.  Its concurrent behaviour is embedded as
a labelled transition system: `avail` is the semaphore counter, `active`
the number of threads inside the `with self.semaphore:` block, `waiting`
the threads blocked in `acquire()`.  A blocked `acquire` can complete
only when the counter is positive, which the `enter` constructor encodes
by pattern-matching a successor counter. -/

structure GateState where
  avail : Nat
  active : Nat
  waiting : Nat
deriving DecidableEq, Repr

/-- Initial gate for limit `n`: `Semaphore(n)`, nobody inside, nobody
waiting. -/
def initGate (n : Nat) : GateState := ⟨n, 0, 0⟩

inductive GateStep : GateState → GateState → Prop where
  | arrive (a c w : Nat) : GateStep ⟨a, c, w⟩ ⟨a, c, w + 1⟩
  | enter (a c w : Nat) : GateStep ⟨a + 1, c, w + 1⟩ ⟨a, c + 1, w⟩
  | finish (a c w : Nat) : GateStep ⟨a, c + 1, w⟩ ⟨a + 1, c, w⟩

inductive GateReachable (n : Nat) : GateState → Prop where
  | init : GateReachable n (initGate n)
  | step {s t : GateState} : GateReachable n s → GateStep s t → GateReachable n t

/-! ## Request lifecycle

`handle_one_request` wraps `super().handle_one_request()` in
`with self.semaphore:` inside a `try` whose `except` arms catch
`ConnectionResetError`/`BrokenPipeError` and every other `Exception`,
with `finally: self.close_connection = True`.  The `with` statement
releases the semaphore on normal and on exceptional exit alike, before
the `except` arms run. -/

inductive GateEvent where
  | acquire
  | release
deriving DecidableEq, Repr

/-- How the wrapped `super().handle_one_request()` call ends. -/
inductive BodyOutcome where
  | normal
  | connReset
  | brokenPipe
  | otherError
deriving DecidableEq, Repr

def bodyRaises : BodyOutcome → Bool
  | .normal => false
  | _ => true

/-- Semantics of `with self.semaphore: body`: acquire, run the body, and
release regardless of whether the body raised; the body's exception, if
any, continues to propagate afterwards. -/
def withSemaphore (bodyEvents : List GateEvent) (raises : Bool) :
    List GateEvent × Bool :=
  (GateEvent.acquire :: bodyEvents ++ [GateEvent.release], raises)

/-- Whether one of the two `except` arms of `handle_one_request` catches
the exception: the first catches the disconnect errors, the second every
other `Exception`. -/
def caughtByHandler : BodyOutcome → Bool
  | .normal => false
  | .connReset => true
  | .brokenPipe => true
  | .otherError => true

structure HandlerExit where
  raised : Bool
  closeConnection : Bool
deriving DecidableEq, Repr

/-- Embedding of `DarkModeHTTPHandler.handle_one_request`: the gate
events it emits and how it exits.  The body itself touches no gate. -/
def handle_one_request (o : BodyOutcome) : List GateEvent × HandlerExit :=
  let w := withSemaphore [] (bodyRaises o)
  (w.1, { raised := w.2 && !(caughtByHandler o), closeConnection := true })

/-! ## Concrete filesystems used to settle individual claims -/

/-- Filesystem with base directory `/srv/base` and an unrelated directory
`/etc` outside it; nothing exists below the base. -/
def fsOutside : List String → FsType := fun l =>
  if l = ["etc"] then .dir
  else if l = ["srv", "base"] then .dir
  else .missing

/-- Filesystem whose base directory `/srv/base` holds exactly one file,
named `a b` (with a literal space). -/
def fsSpaceFile : List String → FsType := fun l =>
  if l = ["srv", "base", "a b"] then .file
  else if l = ["srv", "base"] then .dir
  else .missing

/-! ## Extraction of the hyperlink parts of a rendered list item

Exactly 31 characters of fixed markup precede the href value in a
rendered item: the 22 characters of the `li` open tag and the 9
characters of the text up to and including `href=` and its opening
quote.  The href value extends to the next double quote, and the link
text runs from just after the following two characters up to the next
`<`. -/

def hrefOf (s : String) : String :=
  String.mk ((s.data.drop 31).takeWhile (fun c => c != '"'))

def linkTextOf (s : String) : String :=
  String.mk (((((s.data.drop 31).dropWhile (fun c => c != '"')).drop 2).takeWhile (fun c => c != '<')))

/-! ## Helper lemmas -/

theorem normalize_aux_of_no_dotdot :
    ∀ (l acc : List String), ".." ∉ l →
      l.foldl (fun acc s => if s = ".." then acc.dropLast else acc ++ [s]) acc = acc ++ l := by
  intro l
  induction l with
  | nil => intro acc _; simp
  | cons x xs ih =>
    intro acc h
    have hx : x ≠ ".." := fun hc => h (hc ▸ List.mem_cons_self x xs)
    have hxs : ".." ∉ xs := fun hc => h (List.mem_cons_of_mem x hc)
    simp only [List.foldl_cons, if_neg (fun hc => hx hc)]
    rw [ih (acc ++ [x]) hxs, List.append_assoc]
    rfl

theorem normalize_of_no_dotdot (l : List String) (h : ".." ∉ l) :
    normalize l = l := by
  simpa using normalize_aux_of_no_dotdot l [] h

theorem gate_inv {n : Nat} {s : GateState} (h : GateReachable n s) :
    s.avail + s.active = n := by
  induction h with
  | init => simp [initGate]
  | step _ st ih =>
    cases st with
    | arrive a c w =>
      change a + c = n at ih
      change a + c = n
      omega
    | enter a c w =>
      change a + 1 + c = n at ih
      change a + (c + 1) = n
      omega
    | finish a c w =>
      change a + (c + 1) = n at ih
      change a + 1 + c = n
      omega

theorem gate_reach_arrivals (n m : Nat) : GateReachable n ⟨n, 0, m⟩ := by
  induction m with
  | zero => exact GateReachable.init
  | succ m ih => exact GateReachable.step ih (GateStep.arrive n 0 m)

theorem gate_reach_enters (n k : Nat) :
    ∀ j, j ≤ n → GateReachable n ⟨n - j, j, n + k - j⟩ := by
  intro j
  induction j with
  | zero =>
    intro _
    simpa using gate_reach_arrivals n (n + k)
  | succ j ih =>
    intro h
    have prev := ih (Nat.le_of_succ_le h)
    have st : GateStep ⟨n - j, j, n + k - j⟩ ⟨n - (j + 1), j + 1, n + k - (j + 1)⟩ := by
      have h1 : n - j = (n - (j + 1)) + 1 := by omega
      have h2 : n + k - j = (n + k - (j + 1)) + 1 := by omega
      rw [h1, h2]
      exact GateStep.enter (n - (j + 1)) j (n + k - (j + 1))
    exact GateReachable.step prev st

theorem gate_reach_saturated (n k : Nat) : GateReachable n ⟨0, n, k⟩ := by
  have h := gate_reach_enters n k n le_rfl
  simpa using h

theorem utf8CharLen_pos (c : Char) : 1 ≤ utf8CharLen c := by
  unfold utf8CharLen
  split_ifs <;> omega

theorem length_le_utf8Sum (l : List Char) : l.length ≤ (l.map utf8CharLen).sum := by
  induction l with
  | nil => simp
  | cons c l ih =>
    have := utf8CharLen_pos c
    simp only [List.length_cons, List.map_cons, List.sum_cons]
    omega

theorem length_eq_utf8Sum_iff (l : List Char) :
    l.length = (l.map utf8CharLen).sum ↔ ∀ c ∈ l, utf8CharLen c = 1 := by
  induction l with
  | nil => simp
  | cons c l ih =>
    have h1 := utf8CharLen_pos c
    have h2 := length_le_utf8Sum l
    simp only [List.length_cons, List.map_cons, List.sum_cons, List.mem_cons]
    constructor
    · intro h
      have hc : utf8CharLen c = 1 := by omega
      have hl : l.length = (l.map utf8CharLen).sum := by omega
      intro x hx
      rcases hx with hx | hx
      · exact hx ▸ hc
      · exact (ih.mp hl) x hx
    · intro h
      have hc : utf8CharLen c = 1 := h c (Or.inl rfl)
      have hl : l.length = (l.map utf8CharLen).sum :=
        ih.mpr (fun x hx => h x (Or.inr hx))
      omega

theorem roundHalfEven_1024_close (num : Nat) :
    2 * ((1024 : Int) * roundHalfEven num 1024 - num) ≤ 1024 ∧
    -(1024 : Int) ≤ 2 * ((1024 : Int) * roundHalfEven num 1024 - num) := by
  unfold roundHalfEven
  have hq := Nat.div_add_mod num 1024
  have hr : num % 1024 < 1024 := Nat.mod_lt num (by omega)
  split_ifs <;> push_cast <;> omega

/-! ## Claims -/

/-- C1 counterexample: on a filesystem whose base directory is
`/srv/base`, the request path `/../../etc` is joined to the base with no
normalization or containment check; the OS-resolved target is `/etc`,
which lies outside the base directory, yet the handler renders a
directory listing for it instead of treating it as Missing. -/
theorem c1_traversal_counterexample :
    handle_file_or_dir fsOutside ["srv", "base"] "/../../etc" =
      FileOrDirResult.listing ["srv", "base", "..", "..", "etc"] ∧
    normalize (resolvedPath ["srv", "base"] "/../../etc") = ["etc"] ∧
    ¬ (["srv", "base"] <+: normalize (resolvedPath ["srv", "base"] "/../../etc")) ∧
    handle_file_or_dir fsOutside ["srv", "base"] "/../../etc" ≠
      FileOrDirResult.notFound := by
  refine ⟨by decide, by decide, by decide, by decide⟩

/-- C1 amended: the file/directory branch joins the stripped raw path to
BaseDirectory literally.  When neither the base nor the parsed request
segments contain a `..` segment, the resolved target does lie within
BaseDirectory; traversal segments, however, are passed through unchanged
and can escape the base (see the counterexample). -/
theorem c1_containment_amended (base : List String) (raw : String)
    (hbase : ".." ∉ base) (hraw : ".." ∉ pathSegs (lstripSlash raw)) :
    normalize (resolvedPath base raw) = resolvedPath base raw ∧
    base <+: normalize (resolvedPath base raw) := by
  have hmem : ".." ∉ resolvedPath base raw := by
    simp only [resolvedPath, List.mem_append]
    rintro (h | h)
    exacts [hbase h, hraw h]
  refine ⟨normalize_of_no_dotdot _ hmem, ?_⟩
  rw [normalize_of_no_dotdot _ hmem]
  exact ⟨pathSegs (lstripSlash raw), rfl⟩

theorem c1_containment_amended_witness :
    (".." ∉ (["srv", "base"] : List String)) ∧
    (".." ∉ pathSegs (lstripSlash "/docs/readme.txt")) ∧
    (normalize (resolvedPath ["srv", "base"] "/docs/readme.txt") =
        resolvedPath ["srv", "base"] "/docs/readme.txt" ∧
      ["srv", "base"] <+: normalize (resolvedPath ["srv", "base"] "/docs/readme.txt")) :=
  ⟨by decide, by decide,
    c1_containment_amended ["srv", "base"] "/docs/readme.txt" (by decide) (by decide)⟩

/-- C2: every state reachable by the admission gate has at most `n`
requests inside the pipeline; when `n + k` requests have arrived, the
state with `n` admitted and `k` still waiting is reachable, no step from
it can push a further request inside, and as soon as one request
finishes a waiting one can be admitted. -/
theorem c2_admission_bound (n k : Nat) (hn : 0 < n) (hk : 0 < k) :
    (∀ s, GateReachable n s → s.active ≤ n) ∧
    GateReachable n ⟨0, n, k⟩ ∧
    (∀ t, GateStep ⟨0, n, k⟩ t → t.active ≤ n) ∧
    GateStep ⟨0, n, k⟩ ⟨1, n - 1, k⟩ ∧
    GateStep ⟨1, n - 1, k⟩ ⟨0, n, k - 1⟩ := by
  have h1 : n = (n - 1) + 1 := by omega
  have h2 : k = (k - 1) + 1 := by omega
  refine ⟨?_, gate_reach_saturated n k, ?_, ?_, ?_⟩
  · intro s hs
    have := gate_inv hs
    omega
  · intro t st
    cases st with
    | arrive a c w => exact le_rfl
    | finish a c w => exact Nat.le_succ c
  · have st := GateStep.finish 0 (n - 1) k
    rw [← h1] at st
    exact st
  · have st := GateStep.enter 0 (n - 1) (k - 1)
    rw [← h1, ← h2] at st
    exact st

theorem c2_admission_bound_witness :
    (∀ s, GateReachable 100 s → s.active ≤ 100) ∧
    GateReachable 100 ⟨0, 100, 7⟩ ∧
    (∀ t, GateStep ⟨0, 100, 7⟩ t → t.active ≤ 100) ∧
    GateStep ⟨0, 100, 7⟩ ⟨1, 99, 7⟩ ∧
    GateStep ⟨1, 99, 7⟩ ⟨0, 100, 6⟩ :=
  c2_admission_bound 100 7 (by omega) (by omega)

/-- C3: on every exit path of `handle_one_request` — normal completion,
client disconnect, or any other internal failure — the gate slot is
acquired once and released exactly once, no exception propagates to the
server loop, the connection is marked for closure, and consequently in
every reachable gate state the available count stays between 0 and the
maximum and returns to the maximum whenever no request is in flight. -/
theorem c3_slot_release (o : BodyOutcome) :
    (handle_one_request o).1.count GateEvent.acquire = 1 ∧
    (handle_one_request o).1.count GateEvent.release = 1 ∧
    (handle_one_request o).2.raised = false ∧
    (handle_one_request o).2.closeConnection = true ∧
    (∀ n s, GateReachable n s → s.avail ≤ n ∧ (s.active = 0 → s.avail = n)) := by
  refine ⟨?_, ?_, ?_, rfl, ?_⟩
  · cases o <;> decide
  · cases o <;> decide
  · cases o <;> decide
  · intro n s hs
    have := gate_inv hs
    exact ⟨by omega, fun h0 => by omega⟩

theorem c3_slot_release_witness :
    (handle_one_request BodyOutcome.connReset).1.count GateEvent.acquire = 1 ∧
    (handle_one_request BodyOutcome.connReset).1.count GateEvent.release = 1 ∧
    (handle_one_request BodyOutcome.connReset).2.raised = false ∧
    (handle_one_request BodyOutcome.connReset).2.closeConnection = true ∧
    (∀ n s, GateReachable n s → s.avail ≤ n ∧ (s.active = 0 → s.avail = n)) :=
  c3_slot_release BodyOutcome.connReset

/-- C4 counterexample: a zero-byte file is rendered with the size label
`0 KB`, not the claimed `0.0 KB`. -/
theorem c4_zero_size_counterexample :
    renderChild ⟨"a.txt", false, 0⟩ = ("a.txt", "File", "0 KB") ∧
    fileSizeLabel 0 = "0 KB" ∧
    fileSizeLabel 0 ≠ "0.0 KB" := by
  refine ⟨by decide, by decide, by decide⟩

/-- C4 amended: a file child of positive size gets the label
`{size/1024:.1f} KB` — the number of tenths of a kibibyte rounded
half-to-even, which differs from the exact value `10*size/1024` by at
most one half — while a zero-byte file gets `0 KB`; directory children
and the parent-link entry get `-`. -/
theorem c4_size_label_amended (c : DirChild) (base path : List String)
    (children : List DirChild) :
    (c.isDir = false → 0 < c.size →
      (renderChild c).2.2 = fmtTenths c.size ++ " KB" ∧
      fmtTenths c.size =
        toString (roundHalfEven (10 * c.size) 1024 / 10) ++ "." ++
          toString (roundHalfEven (10 * c.size) 1024 % 10) ∧
      2 * ((1024 : Int) * roundHalfEven (10 * c.size) 1024 - 10 * c.size) ≤ 1024 ∧
      -(1024 : Int) ≤ 2 * ((1024 : Int) * roundHalfEven (10 * c.size) 1024 - 10 * c.size)) ∧
    (c.isDir = false → c.size = 0 → (renderChild c).2.2 = "0 KB") ∧
    (c.isDir = true → (renderChild c).2.2 = "-") ∧
    (path ≠ base →
      (listingItems base path children).head? = some ("../", "Parent Directory", "-")) := by
  refine ⟨?_, ?_, ?_, ?_⟩
  · intro hd hs
    exact ⟨by simp [renderChild, hd, fileSizeLabel, hs], rfl,
      (roundHalfEven_1024_close (10 * c.size)).1,
      (roundHalfEven_1024_close (10 * c.size)).2⟩
  · intro hd hs
    simp [renderChild, hd, fileSizeLabel, hs]
  · intro hd
    simp [renderChild, hd]
  · intro hne
    simp [listingItems, parentEntry, hne]

theorem c4_size_label_amended_witness :
    (renderChild ⟨"b.txt", false, 2048⟩).2.2 = fmtTenths 2048 ++ " KB" ∧
    fmtTenths 2048 = "2.0" ∧
    (renderChild ⟨"sub", true, 0⟩).2.2 = "-" ∧
    (listingItems ["b"] ["b", "sub"] []).head? = some ("../", "Parent Directory", "-") := by
  refine ⟨((c4_size_label_amended ⟨"b.txt", false, 2048⟩ ["b"] ["b", "sub"] []).1 rfl
      (by decide)).1, by decide,
    (c4_size_label_amended ⟨"sub", true, 0⟩ ["b"] ["b", "sub"] []).2.2.1 rfl,
    (c4_size_label_amended ⟨"b.txt", false, 2048⟩ ["b"] ["b", "sub"] []).2.2.2
      (by decide)⟩

/-- C5: a request whose path is exactly `/tcpstates` is answered by the
API handler with status 200, Content-Type `application/json`, a
Content-Length equal to the byte length of the body, and a body that
serializes a JSON object with exactly the keys `status` (constant
`"ok"`), `timestamp` (the current time literal), `host` (the resolved
hostname) and `message` (a fixed descriptive string). -/
theorem c5_tcpstates (fs : List String → FsType) (base : List String)
    (nowLit host : String) :
    do_GET fs base nowLit host "/tcpstates" = GetResult.api (handle_api nowLit host) ∧
    (handle_api nowLit host).status = 200 ∧
    (handle_api nowLit host).contentType = "application/json" ∧
    (handle_api nowLit host).contentLength = utf8Length (handle_api nowLit host).body ∧
    (handle_api nowLit host).body = serializeObj (apiPayload nowLit host) ∧
    (apiPayload nowLit host).map Prod.fst = ["status", "timestamp", "host", "message"] ∧
    List.lookup "status" (apiPayload nowLit host) = some (JsonValue.str "ok") ∧
    List.lookup "timestamp" (apiPayload nowLit host) = some (JsonValue.numLit nowLit) ∧
    List.lookup "host" (apiPayload nowLit host) = some (JsonValue.str host) ∧
    List.lookup "message" (apiPayload nowLit host) =
      some (JsonValue.str "VM-compatible dark mode server") := by
  refine ⟨?_, rfl, rfl, rfl, rfl, rfl, ?_, ?_, ?_, ?_⟩ <;>
    simp [do_GET, apiPayload, List.lookup]

/-- C6: the rendered children of a directory are the single enumerated
snapshot, sorted by name in ascending case-sensitive lexical order;
each directory child displays its name with `/` appended and the size
label `-`, and each file child displays its bare name. -/
theorem c6_sorted_children (base path : List String) (children : List DirChild) :
    listingItems base path children =
      (if path = base then [] else [parentEntry]) ++
        (sortChildren children).map renderChild ∧
    List.Sorted childOrd (sortChildren children) ∧
    List.Sorted (fun a b : String => a ≤ b) ((sortChildren children).map DirChild.name) ∧
    List.Perm (sortChildren children) children ∧
    (∀ c ∈ children,
      (c.isDir = true → renderChild c = (c.name ++ "/", "Directory", "-")) ∧
      (c.isDir = false → renderChild c = (c.name, "File", fileSizeLabel c.size))) := by
  refine ⟨rfl, List.sorted_insertionSort childOrd children, ?_,
    List.perm_insertionSort childOrd children, ?_⟩
  · exact (List.sorted_insertionSort childOrd children).map DirChild.name
      (fun a b h => h)
  · intro c _
    constructor <;> intro h <;> simp [renderChild, h]

theorem c6_sorted_children_witness :
    List.Sorted childOrd (sortChildren [⟨"b.txt", false, 2048⟩, ⟨"a.txt", false, 0⟩]) ∧
    List.Perm (sortChildren [⟨"b.txt", false, 2048⟩, ⟨"a.txt", false, 0⟩])
      [⟨"b.txt", false, 2048⟩, ⟨"a.txt", false, 0⟩] :=
  ⟨(c6_sorted_children [] [] [⟨"b.txt", false, 2048⟩, ⟨"a.txt", false, 0⟩]).2.1,
   (c6_sorted_children [] [] [⟨"b.txt", false, 2048⟩, ⟨"a.txt", false, 0⟩]).2.2.2.1⟩

/-- C7: a listing of any directory other than the base directory starts
with the synthetic parent-link entry `../` carrying the size label `-`,
while a listing of the base directory itself contains only the rendered
children and no synthetic entry. -/
theorem c7_parent_link (base path : List String) (children : List DirChild) :
    (path ≠ base →
      listingItems base path children =
        ("../", "Parent Directory", "-") :: (sortChildren children).map renderChild) ∧
    listingItems base base children = (sortChildren children).map renderChild := by
  constructor
  · intro h
    simp [listingItems, parentEntry, h]
  · simp [listingItems]

theorem c7_parent_link_witness :
    listingItems ["b"] ["b", "sub"] [] =
      ("../", "Parent Directory", "-") :: (sortChildren []).map renderChild ∧
    listingItems ["b"] ["b"] [] = (sortChildren []).map renderChild :=
  ⟨(c7_parent_link ["b"] ["b", "sub"] []).1 (by decide),
   (c7_parent_link ["b"] ["b"] []).2⟩

/-- C8: in every rendered list item the href attribute value and the
link text are the raw display name, interpolated with no transformation
at all; parsing the generated markup back recovers the name in both
positions whenever the name contains no character that would terminate
the attribute or the text node. -/
theorem c8_raw_name_hyperlink (name size : String) :
    (name.data.all (fun c => c != '"') →
      hrefOf (fileItemLi name size) = name) ∧
    (name.data.all (fun c => c != '"' && c != '<') →
      linkTextOf (fileItemLi name size) = name) := by
  have hdata : (fileItemLi name size).data =
      "<li class=\"file-item\">".data ++ ("<a href=\"".data ++ (name.data ++
        ("\">".data ++ (name.data ++ ("</a>".data ++ ("<span class=\"file-size\">".data ++
          (size.data ++ ("</span>".data ++ "</li>".data)))))))) := by
    simp only [fileItemLi, String.data_append, List.append_assoc]
  have hlen : ("<li class=\"file-item\">".data ++ "<a href=\"".data).length = 31 := rfl
  constructor
  · intro hq
    have hall : ∀ a ∈ name.data, (a != '"') = true := by simpa using hq
    unfold hrefOf
    rw [hdata, ← List.append_assoc, List.drop_left' hlen,
      List.takeWhile_append_of_pos hall]
    have ht : List.takeWhile (fun c => c != '"')
        ("\">".data ++ (name.data ++ ("</a>".data ++ ("<span class=\"file-size\">".data ++
          (size.data ++ ("</span>".data ++ "</li>".data)))))) = [] := rfl
    rw [ht, List.append_nil]
  · intro hq
    have hboth : ∀ a ∈ name.data, (a != '"') = true ∧ (a != '<') = true := by
      intro a ha
      have := (List.all_eq_true.mp hq) a ha
      simpa [Bool.and_eq_true] using this
    have hall1 : ∀ a ∈ name.data, (a != '"') = true := fun a ha => (hboth a ha).1
    have hall2 : ∀ a ∈ name.data, (a != '<') = true := fun a ha => (hboth a ha).2
    unfold linkTextOf
    rw [hdata, ← List.append_assoc, List.drop_left' hlen,
      List.dropWhile_append_of_pos hall1]
    have hd2 : (List.dropWhile (fun c => c != '"')
        ("\">".data ++ (name.data ++ ("</a>".data ++ ("<span class=\"file-size\">".data ++
          (size.data ++ ("</span>".data ++ "</li>".data))))))).drop 2 =
        name.data ++ ("</a>".data ++ ("<span class=\"file-size\">".data ++
          (size.data ++ ("</span>".data ++ "</li>".data)))) := rfl
    rw [hd2, List.takeWhile_append_of_pos hall2]
    have ht2 : List.takeWhile (fun c => c != '<')
        ("</a>".data ++ ("<span class=\"file-size\">".data ++
          (size.data ++ ("</span>".data ++ "</li>".data)))) = [] := rfl
    rw [ht2, List.append_nil]

theorem c8_raw_name_hyperlink_witness :
    ("a.txt" : String).data.all (fun c => c != '"') = true ∧
    hrefOf (fileItemLi "a.txt" "0 KB") = "a.txt" ∧
    linkTextOf (fileItemLi "a.txt" "0 KB") = "a.txt" :=
  ⟨by decide,
   (c8_raw_name_hyperlink "a.txt" "0 KB").1 (by decide),
   (c8_raw_name_hyperlink "a.txt" "0 KB").2 (by decide)⟩

/-- C9: the raw request target — percent escapes and query string
included — is joined to the base directory literally, with only leading
slashes stripped; consequently on a base directory holding a file named
`a b`, the request `/a%20b` finds nothing and yields 404, while the
literal name reaches the file-transfer branch. -/
theorem c9_no_decoding :
    (∀ (base : List String) (raw : String),
      resolvedPath base raw = base ++ pathSegs (lstripSlash raw)) ∧
    pathSegs (lstripSlash "/a%20b") = ["a%20b"] ∧
    pathSegs (lstripSlash "/file?x=1") = ["file?x=1"] ∧
    handle_file_or_dir fsSpaceFile ["srv", "base"] "/a%20b" = FileOrDirResult.notFound ∧
    handle_file_or_dir fsSpaceFile ["srv", "base"] "/a b" =
      FileOrDirResult.delegate ["srv", "base", "a b"] :=
  ⟨fun _ _ => rfl, by decide, by decide, by decide, by decide⟩

/-- C10: the Content-Length of a directory-listing response is the
character count of the generated HTML document, the body sent is the
UTF-8 encoding of that document, and the header equals the number of
body bytes exactly when every character of the document encodes to a
single UTF-8 byte. -/
theorem c10_content_length (base path : List String) (children : List DirChild)
    (ctime : String) :
    (send_directory_listing base path children ctime).contentLength =
      (send_directory_listing base path children ctime).body.length ∧
    (send_directory_listing base path children ctime).body =
      listingHtml ("Directory listing for /" ++ relTo base path) ctime
        (String.intercalate "\n"
          ((listingItems base path children).map fun i => fileItemLi i.1 i.2.2)) ∧
    ((send_directory_listing base path children ctime).contentLength =
        utf8Length (send_directory_listing base path children ctime).body ↔
      ∀ c ∈ (send_directory_listing base path children ctime).body.data,
        utf8CharLen c = 1) := by
  refine ⟨rfl, rfl, ?_⟩
  exact length_eq_utf8Sum_iff (send_directory_listing base path children ctime).body.data

end DarkModeServer
